import Mathlib

/-!
Verification development for the flight-query federation pipeline
(`backend/query_engine/federator.py` and `backend/query_engine/analyzer.py`).

The Python code is shallowly embedded: dictionaries holding canonical flight
rows become a fixed record of optional values, Python `None` becomes
`Option.none`, Python numbers (ints and floats, which the pipeline only ever
combines through exact decimal arithmetic) are modelled by an exact rational
type `Q` with a structurally positive denominator, and fallible code returns
`Option`/`Except`.  Each definition mirrors one Python function line by line.
-/

/-! ## Exact rationals with positive denominators

`Q` models the numeric values flowing through the pipeline (Python ints and
floats produced from decimal literals and the arithmetic the code performs on
them).  The denominator is stored as a predecessor (`dp`), so every `Q` has
denominator `dp + 1 > 0`; values are compared by cross multiplication, so no
normalisation is needed and every operation reduces in the kernel. -/

structure Q where
  num : Int
  dp : Nat
deriving DecidableEq

namespace Q

/-- Denominator (always positive). -/
def den (a : Q) : Nat := a.dp + 1

def ofInt (n : Int) : Q := ⟨n, 0⟩

instance : OfNat Q n := ⟨⟨(n : Int), 0⟩⟩

def mul (a b : Q) : Q := ⟨a.num * b.num, a.dp * b.dp + a.dp + b.dp⟩

def sub (a b : Q) : Q :=
  ⟨a.num * b.den - b.num * a.den, a.dp * b.dp + a.dp + b.dp⟩

/-- Division. Division by zero yields a junk value (the modelled code only
divides by the nonzero literal 100). -/
def div (a b : Q) : Q :=
  if b.num < 0 then ⟨-(a.num * (b.den : Int)), a.den * b.num.natAbs - 1⟩
  else ⟨a.num * (b.den : Int), a.den * b.num.natAbs - 1⟩

/-- Semantic equality (cross multiplication). -/
def eqv (a b : Q) : Bool := a.num * (b.den : Int) = b.num * (a.den : Int)

/-- Semantic `≤` (cross multiplication). -/
def leB (a b : Q) : Bool := a.num * (b.den : Int) ≤ b.num * (a.den : Int)

/-- Semantic `<` (cross multiplication). -/
def ltB (a b : Q) : Bool := a.num * (b.den : Int) < b.num * (a.den : Int)

end Q

/-! ## Python-ish primitives: values, truthiness, strings -/

/-- A Python scalar as it appears in the pipeline: a string or a number. -/
inductive Val
  | str (s : String)
  | num (q : Q)
deriving DecidableEq

/-- Python truthiness for the values above: empty string and zero are falsy. -/
def truthyVal : Val → Bool
  | .str s => s ≠ ""
  | .num q => q.num ≠ 0

/-- Truthiness of an optional value (`None` is falsy). -/
def truthyO : Option Val → Bool
  | none => false
  | some v => truthyVal v

/-- Truthiness of an optional string field. -/
def truthyS : Option String → Bool
  | none => false
  | some s => s ≠ ""

/-- Truthiness of an optional integer field. -/
def truthyI : Option Int → Bool
  | none => false
  | some n => n != 0

def isPyWs (c : Char) : Bool :=
  c = ' ' || c = '\t' || c = '\n' || c = '\x0d' || c = '\x0b' || c = '\x0c'

/-- Python `str.lower()` (ASCII). -/
def pyLower (s : String) : String := ⟨s.data.map Char.toLower⟩

/-- Python `str.upper()` (ASCII). -/
def pyUpper (s : String) : String := ⟨s.data.map Char.toUpper⟩

def stripChars (l : List Char) : List Char :=
  ((l.dropWhile isPyWs).reverse.dropWhile isPyWs).reverse

/-- Python `str.strip()`. -/
def pyStrip (s : String) : String := ⟨stripChars s.data⟩

def pyTitleGo : Bool → List Char → List Char
  | _, [] => []
  | prevAlpha, c :: cs =>
    (if c.isAlpha then (if prevAlpha then c.toLower else c.toUpper) else c)
      :: pyTitleGo c.isAlpha cs

/-- Python `str.title()` (ASCII): upper-case every letter that follows a
non-letter, lower-case every other letter. -/
def pyTitle (s : String) : String := ⟨pyTitleGo false s.data⟩

def isPrefB : List Char → List Char → Bool
  | [], _ => true
  | _ :: _, [] => false
  | a :: as, b :: bs => a = b && isPrefB as bs

def isSubB (pat : List Char) : List Char → Bool
  | [] => pat.isEmpty
  | b :: bs => isPrefB pat (b :: bs) || isSubB pat bs

/-- Python `pat in s` substring containment. -/
def containsSub (pat s : String) : Bool := isSubB pat.data s.data

/-! ## Number parsing (Python `float(...)`) -/

def digitsToNat (l : List Char) : Nat :=
  l.foldl (fun n c => n * 10 + (c.toNat - 48)) 0

/-- Python `float(s)` on a decimal literal: optional sign, digits, optional
fractional part, surrounded by optional whitespace.  (Exotic forms such as
exponents or `inf`, never produced by the modelled data, are not parsed.) -/
def parseFloatChars (l0 : List Char) : Option Q :=
  let l1 := stripChars l0
  let sl : Int × List Char :=
    match l1 with
    | '-' :: rest => (-1, rest)
    | '+' :: rest => (1, rest)
    | _ => (1, l1)
  let intd := sl.2.takeWhile Char.isDigit
  let rest := sl.2.drop intd.length
  match rest with
  | [] => if intd.isEmpty then none else some ⟨sl.1 * (digitsToNat intd : Int), 0⟩
  | '.' :: rest2 =>
    let frac := rest2.takeWhile Char.isDigit
    if rest2.drop frac.length ≠ [] then none
    else if intd.isEmpty && frac.isEmpty then none
    else some ⟨sl.1 * (digitsToNat (intd ++ frac) : Int), 10 ^ frac.length - 1⟩
  | _ => none

/-- Python `float(v)`: numbers pass through, strings get parsed. -/
def pyFloat : Val → Option Q
  | .num q => some q
  | .str s => parseFloatChars s.data

/-- Python `str(v)` as used for synthesizing identity keys.  Numeric rendering
is simplified (`num/den`); it only feeds synthesized key strings and no claim
depends on the exact spelling of a numeric key component. -/
def pyValStr : Val → String
  | .str s => s
  | .num q => if q.dp = 0 then toString q.num else toString q.num ++ "/" ++ toString q.den

/-- Rendering of an optional value inside an f-string (`None` for null). -/
def pyStrOptV : Option Val → String
  | none => "None"
  | some v => pyValStr v

/-- Rendering with a `dict.get(k, default)` default for an absent value. -/
def pyStrD (o : Option Val) (d : String) : String :=
  match o with
  | none => d
  | some v => pyValStr v

/-! ## Canonical rows and `normalize_row`

A row is a Python dict with the canonical key set used throughout
`federator.py` (`flight_no`, `airline`, `origin`, `destination`, `date`,
`departure_time`, `price`, `seat_count`, `source`); a field holding `none`
models the key being absent or set to Python `None`. -/

structure Row where
  flight_no : Option Val
  airline : Option Val
  origin : Option Val
  destination : Option Val
  date : Option Val
  departure_time : Option Val
  price : Option Val
  seat_count : Option Val
  source : Option Val
deriving DecidableEq

/-- Field names of a canonical row, for quantifying over fields. -/
inductive RowField
  | flight_no | airline | origin | destination | date | departure_time
  | price | seat_count | source
deriving DecidableEq

def getField (r : Row) : RowField → Option Val
  | .flight_no => r.flight_no
  | .airline => r.airline
  | .origin => r.origin
  | .destination => r.destination
  | .date => r.date
  | .departure_time => r.departure_time
  | .price => r.price
  | .seat_count => r.seat_count
  | .source => r.source

/-- `normalize_row` (federator.py lines 199-225): coerce the price to a float
(stripping commas when given as a string, `None` when uncoercible), resolve a
truthy `departure_time`, title-case truthy origin/destination, and synthesize
`flight_no` as `source_origin_destination_date` when falsy. -/
def normalize_row (r : Row) : Row :=
  let price : Option Val :=
    match r.price with
    | none => none
    | some (.num q) => some (.num q)
    | some (.str s) =>
      match parseFloatChars s.data with
      | some q => some (.num q)
      | none =>
        match parseFloatChars (s.data.filter (fun c => c ≠ ',')) with
        | some q => some (.num q)
        | none => none
  let dt : Option Val := if truthyO r.departure_time then r.departure_time else none
  let origin : Option Val :=
    match r.origin with
    | some v => if truthyVal v then some (.str (pyTitle (pyValStr v))) else some v
    | none => none
  let destination : Option Val :=
    match r.destination with
    | some v => if truthyVal v then some (.str (pyTitle (pyValStr v))) else some v
    | none => none
  let flight_no : Option Val :=
    if truthyO r.flight_no then r.flight_no
    else some (.str (pyStrD r.source "UNKNOWN" ++ "_" ++ pyStrOptV origin ++ "_"
        ++ pyStrOptV destination ++ "_" ++ pyStrOptV r.date))
  { r with price := price, departure_time := dt, origin := origin,
           destination := destination, flight_no := flight_no }

/-! ## The merge engine (`integrate_results`, federator.py lines 268-299) -/

/-- The merge key: `r.get("flight_no") or f"{origin}-{destination}-{date}"`. -/
def mergeKey (r : Row) : Val :=
  match r.flight_no with
  | some v =>
    if truthyVal v then v
    else .str (pyStrOptV r.origin ++ "-" ++ pyStrOptV r.destination ++ "-" ++ pyStrOptV r.date)
  | none =>
    .str (pyStrOptV r.origin ++ "-" ++ pyStrOptV r.destination ++ "-" ++ pyStrOptV r.date)

/-- The insertion-ordered dict `merged`, as an association list. -/
abbrev MergedMap := List (Val × Row)

def assocLookup : MergedMap → Val → Option Row
  | [], _ => none
  | p :: rest, k => if p.1 = k then some p.2 else assocLookup rest k

/-- Replace the value stored at an existing key, keeping its dict position. -/
def assocSet : MergedMap → Val → Row → MergedMap
  | [], _, _ => []
  | p :: rest, k, v => if p.1 = k then (k, v) :: rest else p :: assocSet rest k v

/-- One DWH row: `merged.setdefault(key, {}).update(r)` — on a fresh key this
inserts `r`; on an existing key `dict.update` overwrites every field of the
stored record with `r`'s (rows share the canonical key set). -/
def foldDwh (m : MergedMap) (r : Row) : MergedMap :=
  match assocLookup m (mergeKey r) with
  | some _ => assocSet m (mergeKey r) r
  | none => m ++ [(mergeKey r, r)]

/-- Fill one field: only a currently null or empty-string field is replaced,
and only by a non-null value. -/
def fillField (old new : Option Val) : Option Val :=
  match new with
  | none => old
  | some v =>
    match old with
    | none => some v
    | some w => if w = .str "" then some v else some w

def fillRow (old new : Row) : Row where
  flight_no := fillField old.flight_no new.flight_no
  airline := fillField old.airline new.airline
  origin := fillField old.origin new.origin
  destination := fillField old.destination new.destination
  date := fillField old.date new.date
  departure_time := fillField old.departure_time new.departure_time
  price := fillField old.price new.price
  seat_count := fillField old.seat_count new.seat_count
  source := fillField old.source new.source

/-- One IndiGo/Mongo row: fresh keys insert the row, existing keys only fill
null/empty fields from the row's non-null values. -/
def foldFill (m : MergedMap) (r : Row) : MergedMap :=
  match assocLookup m (mergeKey r) with
  | some old => assocSet m (mergeKey r) (fillRow old r)
  | none => m ++ [(mergeKey r, r)]

/-- The merged records in dict insertion order (`list(merged.values())`). -/
def integrateUnsorted (dwh_rows indigo_rows mongo_rows : List Row) : List Row :=
  let dwh_n := dwh_rows.map normalize_row
  let indigo_n := indigo_rows.map normalize_row
  let mongo_n := mongo_rows.map normalize_row
  ((mongo_n.foldl foldFill (indigo_n.foldl foldFill (dwh_n.foldl foldDwh []))).map (·.2))

/-- `x.get("price") or 0` inside the sort key.  (A truthy string price would
make the Python comparison raise; normalized rows only carry numeric or null
prices, so that path is unreachable in `integrate_results`.) -/
def priceOr0 (r : Row) : Q :=
  match r.price with
  | some (.num q) => if q.num ≠ 0 then q else ⟨0, 0⟩
  | some (.str _) => ⟨0, 0⟩
  | none => ⟨0, 0⟩

/-- The sort comparison induced by the key
`lambda x: (x.get("price") is None, x.get("price") or 0)` under Python tuple
ordering. -/
def rowLE (x y : Row) : Bool :=
  match x.price.isNone, y.price.isNone with
  | false, true => true
  | true, false => false
  | _, _ => (priceOr0 x).leB (priceOr0 y)

/-- Stable insertion: place `x` before the first element it is `le` to. -/
def insSorted (le : α → α → Bool) (x : α) : List α → List α
  | [] => [x]
  | y :: ys => if le x y then x :: y :: ys else y :: insSorted le x ys

/-- Stable insertion sort, modelling Python's stable `list.sort(key=...)`. -/
def isort (le : α → α → Bool) : List α → List α
  | [] => []
  | x :: xs => insSorted le x (isort le xs)

/-- `integrate_results` (federator.py lines 268-299): normalize all rows, fold
them into the keyed merge dict source by source (DWH, IndiGo, Mongo), then
stable-sort ascending by price with null prices last. -/
def integrate_results (dwh_rows indigo_rows mongo_rows : List Row) : List Row :=
  isort rowLE (integrateUnsorted dwh_rows indigo_rows mongo_rows)

/-! ## Parsed intents and the per-source query builders
(federator.py lines 87-125) -/

/-- The parsed intent dict produced by the analyzer (spec §3 "Intent"). -/
structure Parsed where
  airline : Option String
  origin : Option String
  destination : Option String
  date : Option String
  price_limit : Option Int
  seat_count : Option Int
  intent : Option String
deriving DecidableEq

/-- `str(parsed.get("intent","LIST")).upper()`. -/
def intentOf (parsed : Parsed) : String := pyUpper (parsed.intent.getD "LIST")

def dwhAvgSql : String :=
  "SELECT AVG(price) AS avg_price FROM flights_dwh WHERE origin = %s AND destination = %s;"

def dwhBaseSql : String :=
  "SELECT flight_no, airline, origin, destination, flight_date AS date, price, array_length(seats,1) AS seat_count, \x27DWH\x27 as source FROM flights_dwh WHERE 1=1"

/-- The SQL text accumulated by `build_param_sql_dwh` (federator.py lines
87-100): the base selection plus one fixed fragment per truthy intent field,
in source order. -/
def dwhSqlText (parsed : Parsed) : String :=
  let intent := intentOf parsed
  if intent = "AVG" then dwhAvgSql
  else
    let b1 := if truthyS parsed.origin then dwhBaseSql ++ " AND origin = %s" else dwhBaseSql
    let b2 := if truthyS parsed.destination then b1 ++ " AND destination = %s" else b1
    let b3 := if truthyS parsed.date then b2 ++ " AND flight_date = %s" else b2
    let b4 := if truthyI parsed.price_limit then b3 ++ " AND price < %s" else b3
    let b5 := if truthyI parsed.seat_count then b4 ++ " AND array_length(seats,1) > %s" else b4
    (if intent = "MIN" then b5 ++ " ORDER BY price ASC LIMIT 1" else b5) ++ ";"

/-- The parameter list accumulated by `build_param_sql_dwh`: one appended
value per truthy intent field, in source order (`none` models a Python `None`
parameter in the AVG branch). -/
def dwhParams (parsed : Parsed) : List (Option Val) :=
  if intentOf parsed = "AVG" then [parsed.origin.map Val.str, parsed.destination.map Val.str]
  else
    (if truthyS parsed.origin then [parsed.origin.map Val.str] else [])
      ++ (if truthyS parsed.destination then [parsed.destination.map Val.str] else [])
      ++ (if truthyS parsed.date then [parsed.date.map Val.str] else [])
      ++ (if truthyI parsed.price_limit then [parsed.price_limit.map (fun n => Val.num ⟨n, 0⟩)] else [])
      ++ (if truthyI parsed.seat_count then [parsed.seat_count.map (fun n => Val.num ⟨n, 0⟩)] else [])

/-- `build_param_sql_dwh`: the SQL template together with its ordered
parameter list. -/
def build_param_sql_dwh (parsed : Parsed) : String × List (Option Val) :=
  (dwhSqlText parsed, dwhParams parsed)

def indigoAvgSql : String :=
  "SELECT AVG(fare) AS avg_price FROM indigo_src WHERE from_city = %s AND to_city = %s;"

def indigoBaseSql : String :=
  "SELECT flight_no, airline, from_city AS origin, to_city AS destination, journey_date AS date, departure_time, fare as price, NULL as seat_count, \x27IndiGo\x27 as source FROM indigo_src WHERE 1=1"

/-- The SQL text accumulated by `build_param_sql_indigo` (federator.py lines
102-115). -/
def indigoSqlText (parsed : Parsed) : String :=
  let intent := intentOf parsed
  if intent = "AVG" then indigoAvgSql
  else
    let b1 := if truthyS parsed.origin then indigoBaseSql ++ " AND from_city = %s" else indigoBaseSql
    let b2 := if truthyS parsed.destination then b1 ++ " AND to_city = %s" else b1
    let b3 := if truthyS parsed.date then b2 ++ " AND journey_date = %s" else b2
    let b4 := if truthyI parsed.price_limit then b3 ++ " AND fare < %s" else b3
    let b5 := if truthyI parsed.seat_count then b4 ++ " AND array_length(seats,1) > %s" else b4
    (if intent = "MIN" then b5 ++ " ORDER BY fare ASC LIMIT 1" else b5) ++ ";"

/-- The parameter list accumulated by `build_param_sql_indigo`. -/
def indigoParams (parsed : Parsed) : List (Option Val) :=
  if intentOf parsed = "AVG" then [parsed.origin.map Val.str, parsed.destination.map Val.str]
  else
    (if truthyS parsed.origin then [parsed.origin.map Val.str] else [])
      ++ (if truthyS parsed.destination then [parsed.destination.map Val.str] else [])
      ++ (if truthyS parsed.date then [parsed.date.map Val.str] else [])
      ++ (if truthyI parsed.price_limit then [parsed.price_limit.map (fun n => Val.num ⟨n, 0⟩)] else [])
      ++ (if truthyI parsed.seat_count then [parsed.seat_count.map (fun n => Val.num ⟨n, 0⟩)] else [])

/-- `build_param_sql_indigo`: relational builder B. -/
def build_param_sql_indigo (parsed : Parsed) : String × List (Option Val) :=
  (indigoSqlText parsed, indigoParams parsed)

/-- The document-store filter mapping: `none` means the key is absent from the
filter dict. -/
structure MongoFilter where
  route_origin : Option String
  route_destination : Option String
  schedule_date : Option String
  pricing_base_price_lt : Option Int
  availability_seats_count_gt : Option Int
  airline_name : Option String
deriving DecidableEq

/-- `build_mongo_filter` (federator.py lines 117-125). -/
def build_mongo_filter (parsed : Parsed) : MongoFilter where
  route_origin := if truthyS parsed.origin then parsed.origin else none
  route_destination := if truthyS parsed.destination then parsed.destination else none
  schedule_date := if truthyS parsed.date then parsed.date else none
  pricing_base_price_lt := if truthyI parsed.price_limit then parsed.price_limit else none
  availability_seats_count_gt := if truthyI parsed.seat_count then parsed.seat_count else none
  airline_name := if truthyS parsed.airline then parsed.airline else none

/-! ## Document-store effective price
(`compute_effective_price_from_mongo`, federator.py lines 174-188) -/

/-- The value stored under `pricing.offer`: a nested dict (with an optional
`discount` entry) or any non-dict value. -/
inductive MOffer
  | dict (discount : Option Val)
  | nonDict (v : Val)
deriving DecidableEq

structure MPricing where
  base_price : Option Val
  offer : Option MOffer
  discount_percent : Option Val
deriving DecidableEq

/-- A document-store document, as read by the price computation. -/
structure MongoDoc where
  pricing : Option MPricing
deriving DecidableEq

/-- `doc.get("pricing",{})`. -/
def mongoPricing (doc : MongoDoc) : MPricing := doc.pricing.getD ⟨none, none, none⟩

/-- The discount lookup: the nested `pricing.offer.discount` (only when the
offer is a dict), else the flat `pricing.discount_percent`. -/
def mongoDisc (doc : MongoDoc) : Option Val :=
  let d1 : Option Val :=
    match (mongoPricing doc).offer with
    | some (.dict d) => d
    | _ => none
  match d1 with
  | some v => some v
  | none => (mongoPricing doc).discount_percent

/-- `compute_effective_price_from_mongo`: effective price
`float(base) * (1 - float(disc)/100.0)` when a discount is found, `float(base)`
when not or when a float conversion fails, and `None` when the base price is
missing or unparseable. -/
def compute_effective_price_from_mongo (doc : MongoDoc) : Option Q :=
  match (mongoPricing doc).base_price with
  | none => none
  | some base =>
    match mongoDisc doc with
    | some disc =>
      match pyFloat base, pyFloat disc with
      | some b, some d => some (b.mul ((1 : Q).sub (d.div (100 : Q))))
      | _, _ => pyFloat base
    | none => pyFloat base

/-! ## Deterministic date resolver (`resolve_date`, analyzer.py lines 25-38) -/

structure PyDate where
  year : Nat
  month : Nat
  day : Nat
deriving DecidableEq

def isLeap (y : Nat) : Bool := y % 4 = 0 && (y % 100 ≠ 0 || y % 400 = 0)

def daysInMonth (y m : Nat) : Nat :=
  if m = 2 then (if isLeap y then 29 else 28)
  else if m = 4 || m = 6 || m = 9 || m = 11 then 30
  else 31

/-- `today + timedelta(days=1)`. -/
def nextDay (d : PyDate) : PyDate :=
  if d.day < daysInMonth d.year d.month then ⟨d.year, d.month, d.day + 1⟩
  else if d.month < 12 then ⟨d.year, d.month + 1, 1⟩
  else ⟨d.year + 1, 1, 1⟩

def pad2 (n : Nat) : String := if n < 10 then "0" ++ toString n else toString n

def pad4 (n : Nat) : String :=
  if n < 10 then "000" ++ toString n
  else if n < 100 then "00" ++ toString n
  else if n < 1000 then "0" ++ toString n
  else toString n

/-- Python `str(date(y, m, d))` — ISO `YYYY-MM-DD`. -/
def dateStr (d : PyDate) : String := pad4 d.year ++ "-" ++ pad2 d.month ++ "-" ++ pad2 d.day

def monthNames : List (String × Nat) :=
  [("jan", 1), ("feb", 2), ("mar", 3), ("apr", 4), ("may", 5), ("jun", 6),
   ("jul", 7), ("aug", 8), ("sep", 9), ("oct", 10), ("nov", 11), ("dec", 12)]

/-- Match one of the three-letter month names at the head of the text. -/
def matchMonth (cs : List Char) : Option Nat :=
  (monthNames.find? (fun p => isPrefB p.1.data cs)).map (·.2)

/-- Try to match the regex `(\d{1,2})\s*(jan|feb|...)` anchored at the head:
greedily take two digits, backtracking to one when the month fails. -/
def tryDayMonth : List Char → Option (Nat × Nat)
  | [] => none
  | c1 :: rest1 =>
    if c1.isDigit then
      match rest1 with
      | c2 :: rest2 =>
        if c2.isDigit then
          match matchMonth (rest2.dropWhile isPyWs) with
          | some m => some ((c1.toNat - 48) * 10 + (c2.toNat - 48), m)
          | none =>
            match matchMonth (rest1.dropWhile isPyWs) with
            | some m => some (c1.toNat - 48, m)
            | none => none
        else
          match matchMonth (rest1.dropWhile isPyWs) with
          | some m => some (c1.toNat - 48, m)
          | none => none
      | [] => none
    else none

/-- `re.search` for the day+month pattern: leftmost match. -/
def searchDayMonth : List Char → Option (Nat × Nat)
  | [] => none
  | c :: cs =>
    match tryDayMonth (c :: cs) with
    | some r => some r
    | none => searchDayMonth cs

/-- Result of `resolve_date`: a returned value (an ISO date string or `None`)
or a raised `ValueError` from the `datetime` constructor. -/
inductive DateResult
  | ok (d : Option String)
  | raises
deriving DecidableEq

/-- `resolve_date` (analyzer.py lines 25-38): "tomorrow" keyword first, then
"today", then a day+month-name pattern resolved in the current year (a
`datetime` constructor error on an out-of-range day propagates as `raises`);
otherwise `None`. -/
def resolve_date (text : String) (today : PyDate) : DateResult :=
  if containsSub "tomorrow" text then .ok (some (dateStr (nextDay today)))
  else if containsSub "today" text then .ok (some (dateStr today))
  else
    match searchDayMonth text.data with
    | some dm =>
      if 1 ≤ dm.1 && dm.1 ≤ daysInMonth today.year dm.2 then
        .ok (some (dateStr ⟨today.year, dm.2, dm.1⟩))
      else .raises
    | none => .ok none

/-! ## City normalizer (`fuzzy_city_normalize`, federator.py lines 51-69) -/

def CANONICAL_CITIES : List String :=
  ["Delhi", "Chennai", "Mumbai", "Bangalore", "Kolkata", "Hyderabad", "Pune", "Ahmedabad"]

def ALIAS_MAP : List (String × String) :=
  [("delgi", "Delhi"), ("delh", "Delhi"), ("chenai", "Chennai"),
   ("banglore", "Bangalore"), ("bengaluru", "Bangalore")]

/-- Default of `FUZZY_MATCH_THRESHOLD` (an integer, 0-100 scale). -/
def FUZZY_THRESHOLD : Q := 70

/-- Longest-common-subsequence length by row dynamic programming (structural
recursion, so it evaluates in the kernel).  `lcsRowGo c bs prevTail diag left`
extends the DP row: `diag` is the previous row's entry at this column, `left`
the new row's entry one column back. -/
def lcsRowGo (c : Char) : List Char → List Nat → Nat → Nat → List Nat
  | [], _, _, _ => []
  | b :: bs, prev, diag, left =>
    match prev with
    | [] => []
    | p :: ps =>
      let v := if c = b then diag + 1 else max left p
      v :: lcsRowGo c bs ps p v

def lcsStep (c : Char) (s2 : List Char) (prev : List Nat) : List Nat :=
  match prev with
  | [] => []
  | p0 :: ps => 0 :: lcsRowGo c s2 ps p0 0

def lcs (s1 s2 : List Char) : Nat :=
  (s1.foldl (fun row c => lcsStep c s2 row) (List.replicate (s2.length + 1) 0)).getLastD 0

/-- `rapidfuzz.fuzz.ratio`: the normalized indel similarity
`100 * (1 - indel/(len1+len2)) = 200 * lcs / (len1 + len2)` on a 0-100 scale,
case-sensitively on the raw strings (no preprocessing). -/
def ratioQ (a b : String) : Q :=
  let la := a.data.length
  let lb := b.data.length
  if la + lb = 0 then 100 else ⟨(200 * lcs a.data b.data : Nat), la + lb - 1⟩

/-- `rapidfuzz.process.extractOne(query, choices, scorer=fuzz.ratio)`: the
first choice attaining the maximal score (later choices must score strictly
higher to replace the incumbent). -/
def extractOne (query : String) (choices : List String) : Option (String × Q) :=
  choices.foldl (fun best c =>
    match best with
    | none => some (c, ratioQ query c)
    | some bs => if bs.2.ltB (ratioQ query c) then some (c, ratioQ query c) else some bs) none

/-- `fuzzy_city_normalize` (federator.py lines 55-69): alias table, then exact
case-insensitive canonical match, then fuzzy match against the canonical list
accepted at the threshold, else the title-cased raw input.  Null or empty
input yields null. -/
def fuzzy_city_normalize (city_raw : Option String) : Option String :=
  match city_raw with
  | none => none
  | some s =>
    if s = "" then none
    else
      let key := pyLower (pyStrip s)
      match ALIAS_MAP.find? (fun p => p.1 == key) with
      | some p => some p.2
      | none =>
        match CANONICAL_CITIES.find? (fun c => key == pyLower c) with
        | some c => some c
        | none =>
          match extractOne s CANONICAL_CITIES with
          | some best =>
            if FUZZY_THRESHOLD.leB best.2 then
              some (if pyLower best.1 == "bengaluru" then "Bangalore" else best.1)
            else some (pyTitle s)
          | none => some (pyTitle s)

/-! ## Summarization stage (federator.py lines 351-383 and
`safe_call_llm`, llm_client.py lines 206-217) -/

/-- Outcome of the model-provider call `_call_groq` as observed by
`safe_call_llm`: a response dict carrying optional text, or a raised error. -/
inductive ProviderResult
  | ok (text : Option String)
  | raise
deriving DecidableEq

/-- The dict returned by `safe_call_llm`: `{"text": ...}` (stripped) on
success, `{"error": ...}` otherwise. -/
inductive SafeResp
  | textD (t : String)
  | errD
deriving DecidableEq

/-- `safe_call_llm` (llm_client.py lines 206-217): never raises; converts a
raise or a missing text into an error dict and strips the text otherwise. -/
def safe_call_llm : ProviderResult → SafeResp
  | .raise => .errD
  | .ok none => .errD
  | .ok (some t) => .textD (pyStrip t)

inductive SummarySource
  | llm
  | fallback
deriving DecidableEq

def startsWithB (p s : String) : Bool := isPrefB p.data s.data

def endsWithB (p s : String) : Bool := isPrefB p.data.reverse s.data.reverse

def findIdx (c : Char) : List Char → Option Nat
  | [] => none
  | x :: xs => if x = c then some 0 else (findIdx c xs).map (· + 1)

def rfindIdx (c : Char) (l : List Char) : Option Nat :=
  (findIdx c l.reverse).map (fun i => l.length - 1 - i)

/-- Code-fence stripping (federator.py lines 359-363): if the text is wrapped
in triple backquotes, cut it down to the outermost brace span when one exists. -/
def stripFences (text : String) : String :=
  if startsWithB "```" text && endsWithB "```" text then
    match findIdx '{' text.data, rfindIdx '}' text.data with
    | some s, some e => if s < e then ⟨(text.data.drop s).take (e + 1 - s)⟩ else text
    | _, _ => text
  else text

/-- Sort key `lambda x: x.get("price")` on rows whose price is non-null. -/
def priceLE (x y : Row) : Bool :=
  (match x.price with | some (.num q) => q | _ => ⟨0, 0⟩).leB
    (match y.price with | some (.num q) => q | _ => ⟨0, 0⟩)

/-- The deterministic fallback: up to 3 priced rows ascending by price,
rendered `flight_no(price)` and joined after the branch tag. -/
def fallbackSummary (tag : String) (integrated : List Row) : String :=
  let top3 := (isort priceLE (integrated.filter (fun r => !r.price.isNone))).take 3
  tag ++ String.intercalate ", "
    (top3.map (fun r => pyStrOptV r.flight_no ++ "(" ++ pyStrOptV r.price ++ ")"))

/-- The summarization stage of `run_query_interactive` (federator.py lines
351-383): the LLM path is taken only when the LLM is enabled and the safe call
returned truthy text; every other case lands in a deterministic fallback.  The
`except` branches of lines 373-374, 381-382 and 384-393 are unreachable
(sorting and joining normalized rows cannot raise) and are not modelled. -/
def run_summarize (useLLM : Bool) (prov : ProviderResult) (integrated : List Row) :
    String × SummarySource :=
  if useLLM then
    match safe_call_llm prov with
    | .textD t =>
      if t ≠ "" then (stripFences (pyStrip t), .llm)
      else (fallbackSummary "DETERMINISTIC FALLBACK (LLM call failed): " integrated, .fallback)
    | .errD =>
      (fallbackSummary "DETERMINISTIC FALLBACK (LLM call failed): " integrated, .fallback)
  else (fallbackSummary "DETERMINISTIC FALLBACK (no LLM): " integrated, .fallback)

/-- The DWH SQL text as a function of the five truthiness tests and the MIN
test, used to characterize which fragments `dwhSqlText` emits. -/
def dwhSqlOf (o d dt p s m : Bool) : String :=
  let b1 := if o then dwhBaseSql ++ " AND origin = %s" else dwhBaseSql
  let b2 := if d then b1 ++ " AND destination = %s" else b1
  let b3 := if dt then b2 ++ " AND flight_date = %s" else b2
  let b4 := if p then b3 ++ " AND price < %s" else b3
  let b5 := if s then b4 ++ " AND array_length(seats,1) > %s" else b4
  (if m then b5 ++ " ORDER BY price ASC LIMIT 1" else b5) ++ ";"

/-- Equality of the Python sort keys of two rows: same price null-ness and
semantically equal `price or 0`. -/
def rowKeyEqv (x y : Row) : Bool :=
  (x.price.isNone == y.price.isNone) && (priceOr0 x).eqv (priceOr0 y)

/-! ## Concrete inputs used by scenarios, witnesses and counterexamples -/

/-- The parsed intent of "cheapest IndiGo flight from Delhi to Bangalore"
(spec Scenario 2) after city normalization. -/
def scenario2Parsed : Parsed :=
  ⟨some "IndiGo", some "Delhi", some "Bangalore", none, none, none, some "MIN"⟩

/-- An intent with a non-null (but zero) price limit and a non-null airline. -/
def zeroLimitParsed : Parsed :=
  ⟨some "IndiGo", some "Delhi", some "Bangalore", none, some 0, none, some "LIST"⟩

/-- The expected Scenario 2 SQL of relational builder A. -/
def scenario2DwhSql : String :=
  "SELECT flight_no, airline, origin, destination, flight_date AS date, price, array_length(seats,1) AS seat_count, \x27DWH\x27 as source FROM flights_dwh WHERE 1=1 AND origin = %s AND destination = %s ORDER BY price ASC LIMIT 1;"

/-- Scenario 4 document: `base_price=10000`, nested offer discount 20. -/
def scenario4Doc : MongoDoc :=
  ⟨some ⟨some (.num ⟨10000, 0⟩), some (.dict (some (.num ⟨20, 0⟩))), none⟩⟩

/-- Scenario 3 source-A row: key `AI123`, null price, `seat_count` 40. -/
def scenario3RowA : Row :=
  ⟨some (.str "AI123"), none, none, none, none, none, none, some (.num ⟨40, 0⟩), none⟩

/-- Scenario 3 source-B row: key `AI123`, price 4500, null `seat_count`. -/
def scenario3RowB : Row :=
  ⟨some (.str "AI123"), none, none, none, none, none, some (.num ⟨4500, 0⟩), none, none⟩

/-- A DWH row with key `AI1` and price 100. -/
def dwhRow100 : Row :=
  ⟨some (.str "AI1"), none, none, none, none, none, some (.num ⟨100, 0⟩), none, none⟩

/-- A second DWH row with the same key `AI1` and price 200. -/
def dwhRow200 : Row :=
  ⟨some (.str "AI1"), none, none, none, none, none, some (.num ⟨200, 0⟩), none, none⟩

/-! ## General lemmas

Everything from here on is proof. -/

namespace Q

theorem den_pos (a : Q) : (0 : Int) < (a.den : Int) := by
  simp [den]

theorem leB_total (a b : Q) : a.leB b || b.leB a := by
  simp only [leB, Bool.or_eq_true, decide_eq_true_eq]
  omega

theorem leB_trans {a b c : Q} (h1 : a.leB b) (h2 : b.leB c) : a.leB c := by
  simp only [leB, decide_eq_true_eq] at *
  have hb := b.den_pos
  have h1' := mul_le_mul_of_nonneg_right h1 (le_of_lt c.den_pos)
  have h2' := mul_le_mul_of_nonneg_right h2 (le_of_lt a.den_pos)
  have : a.num * (c.den : Int) * (b.den : Int) ≤ c.num * (a.den : Int) * (b.den : Int) := by
    nlinarith
  exact le_of_mul_le_mul_right this hb

theorem eqv_refl (a : Q) : a.eqv a := by simp [eqv]

theorem eqv_symm {a b : Q} (h : a.eqv b) : b.eqv a := by
  simp only [eqv, decide_eq_true_eq] at *
  omega

theorem eqv_trans {a b c : Q} (h1 : a.eqv b) (h2 : b.eqv c) : a.eqv c := by
  simp only [eqv, decide_eq_true_eq] at *
  have hb := b.den_pos
  have : a.num * (c.den : Int) * (b.den : Int) = c.num * (a.den : Int) * (b.den : Int) := by
    nlinarith
  exact mul_right_cancel₀ (by omega) this

theorem leB_of_eqv {a b : Q} (h : a.eqv b) : a.leB b := by
  simp only [eqv, decide_eq_true_eq] at h
  simp [leB, h]

end Q

/-! ## Claim C10 -/

/-- C10: for every Intent whose `price_limit` is 0 or whose `seat_count` is 0,
all three query builders omit the corresponding predicate entirely, exactly as
they do for a null value — the builders test field truthiness. -/
theorem builders_treat_zero_as_null (parsed : Parsed) :
    build_param_sql_dwh { parsed with price_limit := some 0 }
      = build_param_sql_dwh { parsed with price_limit := none } ∧
    build_param_sql_indigo { parsed with price_limit := some 0 }
      = build_param_sql_indigo { parsed with price_limit := none } ∧
    build_mongo_filter { parsed with price_limit := some 0 }
      = build_mongo_filter { parsed with price_limit := none } ∧
    build_param_sql_dwh { parsed with seat_count := some 0 }
      = build_param_sql_dwh { parsed with seat_count := none } ∧
    build_param_sql_indigo { parsed with seat_count := some 0 }
      = build_param_sql_indigo { parsed with seat_count := none } ∧
    build_mongo_filter { parsed with seat_count := some 0 }
      = build_mongo_filter { parsed with seat_count := none } := by
  refine ⟨?_, ?_, ?_, ?_, ?_, ?_⟩ <;>
    simp [build_param_sql_dwh, dwhSqlText, dwhParams, build_param_sql_indigo,
      indigoSqlText, indigoParams, build_mongo_filter, truthyI, intentOf]

/-! ## Claim C7 -/

set_option maxHeartbeats 1600000 in
set_option maxRecDepth 40000 in
/-- C7: for every Intent with a null `price_limit`, none of the three
generated query specifications contains a price predicate. -/
theorem no_price_predicate_when_null (parsed : Parsed)
    (h : parsed.price_limit = none) :
    containsSub " AND price < %s" (build_param_sql_dwh parsed).1 = false ∧
    containsSub " AND fare < %s" (build_param_sql_indigo parsed).1 = false ∧
    (build_mongo_filter parsed).pricing_base_price_lt = none := by
  refine ⟨?_, ?_, ?_⟩
  · show containsSub " AND price < %s" (dwhSqlText parsed) = false
    unfold dwhSqlText
    simp only [h, truthyI]
    simp only [Bool.false_eq_true, if_false]
    split_ifs <;> decide
  · show containsSub " AND fare < %s" (indigoSqlText parsed) = false
    unfold indigoSqlText
    simp only [h, truthyI]
    simp only [Bool.false_eq_true, if_false]
    split_ifs <;> decide
  · simp [build_mongo_filter, h, truthyI]

/-- Witness for C7 at a concrete intent. -/
theorem no_price_predicate_when_null_witness :
    (⟨none, some "Delhi", none, none, none, none, none⟩ : Parsed).price_limit = none ∧
    (containsSub " AND price < %s"
        (build_param_sql_dwh ⟨none, some "Delhi", none, none, none, none, none⟩).1 = false ∧
      containsSub " AND fare < %s"
        (build_param_sql_indigo ⟨none, some "Delhi", none, none, none, none, none⟩).1 = false ∧
      (build_mongo_filter ⟨none, some "Delhi", none, none, none, none, none⟩).pricing_base_price_lt = none) :=
  ⟨rfl, no_price_predicate_when_null ⟨none, some "Delhi", none, none, none, none, none⟩ rfl⟩

/-! ## Claim C6 -/

set_option maxRecDepth 100000 in
theorem dwhSqlOf_filters : ∀ o d dt p s m : Bool,
    containsSub " AND origin = %s" (dwhSqlOf o d dt p s m) = o ∧
    containsSub " AND destination = %s" (dwhSqlOf o d dt p s m) = d ∧
    containsSub " AND flight_date = %s" (dwhSqlOf o d dt p s m) = dt ∧
    containsSub " AND price < %s" (dwhSqlOf o d dt p s m) = p ∧
    containsSub " AND array_length(seats,1) > %s" (dwhSqlOf o d dt p s m) = s ∧
    containsSub " ORDER BY price ASC LIMIT 1" (dwhSqlOf o d dt p s m) = m := by decide

theorem dwhSqlText_eq_of_not_avg (parsed : Parsed) (h : intentOf parsed ≠ "AVG") :
    dwhSqlText parsed = dwhSqlOf (truthyS parsed.origin) (truthyS parsed.destination)
      (truthyS parsed.date) (truthyI parsed.price_limit) (truthyI parsed.seat_count)
      (decide (intentOf parsed = "MIN")) := by
  unfold dwhSqlText dwhSqlOf
  rw [if_neg h]
  by_cases hm : intentOf parsed = "MIN" <;> simp [hm]

set_option maxRecDepth 40000 in
/-- Counterexample to C6 as stated: an intent with the non-null fields
`price_limit = 0` and `airline = "IndiGo"` for which builder A emits neither a
price predicate nor any airline predicate (the only parameters are the two
cities), so not every non-null Intent field is applied as a predicate. -/
theorem dwh_nonnull_fields_not_applied_cx :
    zeroLimitParsed.price_limit = some 0 ∧
    zeroLimitParsed.airline = some "IndiGo" ∧
    containsSub " AND price < %s" (build_param_sql_dwh zeroLimitParsed).1 = false ∧
    containsSub "IndiGo" (build_param_sql_dwh zeroLimitParsed).1 = false ∧
    (build_param_sql_dwh zeroLimitParsed).2 = [some (.str "Delhi"), some (.str "Bangalore")] := by
  refine ⟨rfl, rfl, ?_, ?_, ?_⟩ <;> decide

set_option maxRecDepth 100000 in
/-- C6 (amended): for every Intent whose kind is not AVG, relational builder A
emits the filtered selection that applies exactly the truthy Intent fields
among origin/destination/date/price_limit/seat_count as predicates (price as
`<`, seat count as `>`; a non-null but zero or empty field is omitted, and
`airline` is never consulted), appends the ascending price order with limit 1
exactly when the intent kind is MIN, and in particular emits the Scenario 2
query for the parsed intent of "cheapest IndiGo flight from Delhi to
Bangalore". -/
theorem build_param_sql_dwh_truthy_filters (parsed : Parsed)
    (h : intentOf parsed ≠ "AVG") :
    containsSub " AND origin = %s" (build_param_sql_dwh parsed).1 = truthyS parsed.origin ∧
    containsSub " AND destination = %s" (build_param_sql_dwh parsed).1 = truthyS parsed.destination ∧
    containsSub " AND flight_date = %s" (build_param_sql_dwh parsed).1 = truthyS parsed.date ∧
    containsSub " AND price < %s" (build_param_sql_dwh parsed).1 = truthyI parsed.price_limit ∧
    containsSub " AND array_length(seats,1) > %s" (build_param_sql_dwh parsed).1
      = truthyI parsed.seat_count ∧
    (containsSub " ORDER BY price ASC LIMIT 1" (build_param_sql_dwh parsed).1 = true
      ↔ intentOf parsed = "MIN") ∧
    (∀ a, build_param_sql_dwh { parsed with airline := a } = build_param_sql_dwh parsed) ∧
    build_param_sql_dwh scenario2Parsed
      = (scenario2DwhSql, [some (.str "Delhi"), some (.str "Bangalore")]) := by
  have hs : (build_param_sql_dwh parsed).1 = dwhSqlText parsed := rfl
  obtain ⟨h1, h2, h3, h4, h5, h6⟩ := dwhSqlOf_filters (truthyS parsed.origin)
    (truthyS parsed.destination) (truthyS parsed.date) (truthyI parsed.price_limit)
    (truthyI parsed.seat_count) (decide (intentOf parsed = "MIN"))
  rw [dwhSqlText_eq_of_not_avg parsed h] at hs
  refine ⟨?_, ?_, ?_, ?_, ?_, ?_, ?_, ?_⟩
  · rw [hs]; exact h1
  · rw [hs]; exact h2
  · rw [hs]; exact h3
  · rw [hs]; exact h4
  · rw [hs]; exact h5
  · rw [hs, h6]; exact decide_eq_true_iff
  · intro a
    simp [build_param_sql_dwh, dwhSqlText, dwhParams, intentOf]
  · decide

/-- Witness for the amended C6 at the Scenario 2 intent. -/
theorem build_param_sql_dwh_truthy_filters_witness :
    intentOf scenario2Parsed ≠ "AVG" ∧
    (containsSub " AND origin = %s" (build_param_sql_dwh scenario2Parsed).1
        = truthyS scenario2Parsed.origin ∧
      containsSub " AND destination = %s" (build_param_sql_dwh scenario2Parsed).1
        = truthyS scenario2Parsed.destination ∧
      containsSub " AND flight_date = %s" (build_param_sql_dwh scenario2Parsed).1
        = truthyS scenario2Parsed.date ∧
      containsSub " AND price < %s" (build_param_sql_dwh scenario2Parsed).1
        = truthyI scenario2Parsed.price_limit ∧
      containsSub " AND array_length(seats,1) > %s" (build_param_sql_dwh scenario2Parsed).1
        = truthyI scenario2Parsed.seat_count ∧
      (containsSub " ORDER BY price ASC LIMIT 1" (build_param_sql_dwh scenario2Parsed).1 = true
        ↔ intentOf scenario2Parsed = "MIN") ∧
      (∀ a, build_param_sql_dwh { scenario2Parsed with airline := a }
        = build_param_sql_dwh scenario2Parsed) ∧
      build_param_sql_dwh scenario2Parsed
        = (scenario2DwhSql, [some (.str "Delhi"), some (.str "Bangalore")])) :=
  ⟨by decide, build_param_sql_dwh_truthy_filters scenario2Parsed (by decide)⟩

/-! ## Claim C5 -/

/-- C5: the document-source effective price uses the discount found by
preferring the nested `pricing.offer.discount` over the flat
`pricing.discount_percent`; with a numeric base and discount it equals
`base * (1 - discount/100)`, with no discount it equals the base, and with no
base price it is null (never an exception). -/
theorem compute_effective_price_from_mongo_spec (doc : MongoDoc) :
    ((mongoPricing doc).base_price = none → compute_effective_price_from_mongo doc = none) ∧
    (∀ dv, (mongoPricing doc).offer = some (.dict (some dv)) → mongoDisc doc = some dv) ∧
    (∀ bv dv b d, (mongoPricing doc).base_price = some bv →
      mongoDisc doc = some dv → pyFloat bv = some b → pyFloat dv = some d →
      compute_effective_price_from_mongo doc = some (b.mul ((1 : Q).sub (d.div 100)))) ∧
    (∀ bv b, (mongoPricing doc).base_price = some bv → mongoDisc doc = none →
      pyFloat bv = some b → compute_effective_price_from_mongo doc = some b) := by
  refine ⟨?_, ?_, ?_, ?_⟩
  · intro h
    simp [compute_effective_price_from_mongo, h]
  · intro dv hoff
    simp [mongoDisc, hoff]
  · intro bv dv b d hb hdisc hfb hfd
    simp [compute_effective_price_from_mongo, hb, hdisc, hfb, hfd]
  · intro bv b hb hdisc hfb
    simp [compute_effective_price_from_mongo, hb, hdisc, hfb]

/-- Witness for C5 at the Scenario 4 document: base 10000 with nested offer
discount 20 yields an effective price equal to 8000. -/
theorem compute_effective_price_from_mongo_spec_witness :
    compute_effective_price_from_mongo scenario4Doc
      = some ((⟨10000, 0⟩ : Q).mul ((1 : Q).sub ((⟨20, 0⟩ : Q).div 100))) ∧
    ((⟨10000, 0⟩ : Q).mul ((1 : Q).sub ((⟨20, 0⟩ : Q).div 100))).eqv 8000 = true :=
  ⟨(compute_effective_price_from_mongo_spec scenario4Doc).2.2.1 (.num ⟨10000, 0⟩)
      (.num ⟨20, 0⟩) ⟨10000, 0⟩ ⟨20, 0⟩ rfl rfl rfl rfl,
    by decide⟩

/-! ## Claim C8 -/

/-- Counterexample to C8 as stated: the resolver does not recognize ISO date
literals (the claimed top-priority case) and ignores a stated year — an ISO
literal resolves to null, and "5 jan 2030" resolves to January 5 of the
current year, not 2030. -/
theorem resolve_date_ignores_iso_cx :
    resolve_date "flights on 2025-12-31" ⟨2026, 10, 12⟩ = .ok none ∧
    resolve_date "5 jan 2030" ⟨2026, 10, 12⟩ = .ok (some "2026-01-05") ∧
    DateResult.ok (some "2026-01-05") ≠ DateResult.ok (some "2030-01-05") ∧
    DateResult.ok (none : Option String) ≠ DateResult.ok (some "2025-12-31") := by
  refine ⟨by decide, by decide, by decide, by decide⟩

/-- C8 (amended): the deterministic date resolver recognizes no ISO literal;
the keyword "tomorrow" has top priority and resolves to the day after the
current date, then "today" resolves to the current date; otherwise a
day-plus-month-name pattern resolves to that day in the current year (a
stated year is ignored; a day out of range for the month raises); otherwise
the result is null. -/
theorem resolve_date_spec (text : String) (today : PyDate) :
    (containsSub "tomorrow" text = true →
      resolve_date text today = .ok (some (dateStr (nextDay today)))) ∧
    (containsSub "tomorrow" text = false → containsSub "today" text = true →
      resolve_date text today = .ok (some (dateStr today))) ∧
    (containsSub "tomorrow" text = false → containsSub "today" text = false →
      ∀ d m, searchDayMonth text.data = some (d, m) →
        ((decide (1 ≤ d) && decide (d ≤ daysInMonth today.year m)) = true →
          resolve_date text today = .ok (some (dateStr ⟨today.year, m, d⟩))) ∧
        ((decide (1 ≤ d) && decide (d ≤ daysInMonth today.year m)) = false →
          resolve_date text today = .raises)) ∧
    (containsSub "tomorrow" text = false → containsSub "today" text = false →
      searchDayMonth text.data = none → resolve_date text today = .ok none) := by
  refine ⟨?_, ?_, ?_, ?_⟩
  · intro h1
    simp [resolve_date, h1]
  · intro h1 h2
    simp [resolve_date, h1, h2]
  · intro h1 h2 d m hsm
    constructor
    · intro hd
      simp [resolve_date, h1, h2, hsm, hd]
    · intro hd
      simp [resolve_date, h1, h2, hsm, hd]
  · intro h1 h2 hsm
    simp [resolve_date, h1, h2, hsm]

/-- Witness for the amended C8: "on 5 jan" resolves to January 5 of the
current year. -/
theorem resolve_date_spec_witness :
    (containsSub "tomorrow" "on 5 jan" = false ∧ containsSub "today" "on 5 jan" = false ∧
      searchDayMonth "on 5 jan".data = some (5, 1) ∧
      (decide (1 ≤ 5) && decide (5 ≤ daysInMonth 2026 1)) = true) ∧
    resolve_date "on 5 jan" ⟨2026, 10, 12⟩ = .ok (some (dateStr ⟨2026, 1, 5⟩)) ∧
    dateStr ⟨2026, 1, 5⟩ = "2026-01-05" :=
  ⟨⟨by decide, by decide, by decide, by decide⟩,
    ((resolve_date_spec "on 5 jan" ⟨2026, 10, 12⟩).2.2.1 (by decide) (by decide) 5 1
      (by decide)).1 (by decide),
    by decide⟩

/-! ## Claim C9 -/

/-- Counterexample to C9 as stated: normalizing "DELH I" falls back to the
title-cased "Delh I" (its raw case-sensitive similarity to every canonical
city is below the threshold), but normalizing "Delh I" fuzzy-matches "Delhi"
above the threshold, so normalize∘normalize differs from normalize. -/
theorem fuzzy_city_normalize_not_idempotent_cx :
    fuzzy_city_normalize (some "DELH I") = some "Delh I" ∧
    fuzzy_city_normalize (some "Delh I") = some "Delhi" ∧
    fuzzy_city_normalize (fuzzy_city_normalize (some "DELH I"))
      ≠ fuzzy_city_normalize (some "DELH I") := by
  refine ⟨by decide, by decide, by decide⟩

/-- C9 (amended): the normalizer is idempotent on every input whose
normalization lands in the canonical city list (alias hits, exact
case-insensitive matches and fuzzy-accepted candidates all do); every
canonical city is a fixed point.  Only the title-case fallback can fail to be
a fixed point, because the case-sensitive similarity score of the title-cased
string can cross the acceptance threshold. -/
theorem fuzzy_city_normalize_idem_on_canonical (c : Option String) (r : String)
    (h1 : fuzzy_city_normalize c = some r) (h2 : r ∈ CANONICAL_CITIES) :
    fuzzy_city_normalize (fuzzy_city_normalize c) = fuzzy_city_normalize c := by
  rw [h1]
  simp only [CANONICAL_CITIES, List.mem_cons, List.not_mem_nil, or_false] at h2
  rcases h2 with rfl | rfl | rfl | rfl | rfl | rfl | rfl | rfl <;> decide

/-- Witness for the amended C9: the alias "delgi" normalizes to the canonical
"Delhi", on which normalization is idempotent. -/
theorem fuzzy_city_normalize_idem_on_canonical_witness :
    (fuzzy_city_normalize (some "delgi") = some "Delhi" ∧ "Delhi" ∈ CANONICAL_CITIES) ∧
    fuzzy_city_normalize (fuzzy_city_normalize (some "delgi"))
      = fuzzy_city_normalize (some "delgi") :=
  ⟨⟨by decide, by decide⟩,
    fuzzy_city_normalize_idem_on_canonical (some "delgi") "Delhi" (by decide) (by decide)⟩

/-! ## Lemmas about the merge dict and field filling -/

theorem getField_fillRow (old new : Row) (fld : RowField) :
    getField (fillRow old new) fld = fillField (getField old fld) (getField new fld) := by
  cases fld <;> rfl

theorem fillField_of_some {o n : Option Val} {v : Val} (h : o = some v) (hne : v ≠ .str "") :
    fillField o n = some v := by
  subst h
  cases n with
  | none => rfl
  | some w => simp [fillField, hne]

theorem fillField_of_empty {o n : Option Val} {v : Val}
    (h : o = none ∨ o = some (.str "")) (hn : n = some v) : fillField o n = some v := by
  subst hn
  rcases h with rfl | rfl <;> simp [fillField]

theorem fillField_of_none_new {o n : Option Val} (h : n = none) : fillField o n = o := by
  subst h; rfl

theorem assocLookup_append_left {m l : MergedMap} {k : Val} {r : Row}
    (h : assocLookup m k = some r) : assocLookup (m ++ l) k = some r := by
  induction m with
  | nil => simp [assocLookup] at h
  | cons p rest ih =>
    by_cases hp : p.1 = k
    · simp [assocLookup, hp] at h ⊢; exact h
    · simp [assocLookup, hp] at h ⊢; exact ih h

theorem assocLookup_append_right {m l : MergedMap} {k : Val}
    (h : assocLookup m k = none) : assocLookup (m ++ l) k = assocLookup l k := by
  induction m with
  | nil => simp
  | cons p rest ih =>
    by_cases hp : p.1 = k
    · simp [assocLookup, hp] at h
    · simp [assocLookup, hp] at h ⊢; exact ih h

theorem assocLookup_assocSet_of_some {m : MergedMap} {k : Val} {r0 : Row} (v : Row)
    (h : assocLookup m k = some r0) : assocLookup (assocSet m k v) k = some v := by
  induction m with
  | nil => simp [assocLookup] at h
  | cons p rest ih =>
    by_cases hp : p.1 = k
    · simp [assocLookup, assocSet, hp]
    · simp [assocLookup, assocSet, hp] at h ⊢
      exact ih h

theorem assocLookup_assocSet_ne {m : MergedMap} {k k' : Val} {v : Row} (hne : k ≠ k') :
    assocLookup (assocSet m k v) k' = assocLookup m k' := by
  induction m with
  | nil => simp [assocSet]
  | cons p rest ih =>
    by_cases hp : p.1 = k
    · have : k ≠ k' := hne
      simp [assocSet, assocLookup, hp, this]
    · simp [assocSet, assocLookup, hp]
      by_cases hp' : p.1 = k'
      · simp [hp']
      · simp [hp', ih]

theorem assocLookup_mem {m : MergedMap} {k : Val} {r : Row}
    (h : assocLookup m k = some r) : r ∈ m.map (·.2) := by
  induction m with
  | nil => simp [assocLookup] at h
  | cons p rest ih =>
    by_cases hp : p.1 = k
    · simp [assocLookup, hp] at h
      simp [h.symm]
    · simp [assocLookup, hp] at h
      simp [ih h]

/-- One fill step preserves every non-null, non-empty field stored under any
key: `dict.update`-free filling never overwrites such a value. -/
theorem foldFill_preserve {m : MergedMap} (r : Row) {k : Val} {row : Row} {fld : RowField}
    {v : Val} (hl : assocLookup m k = some row) (hv : getField row fld = some v)
    (hne : v ≠ .str "") :
    ∃ row', assocLookup (foldFill m r) k = some row' ∧ getField row' fld = some v := by
  unfold foldFill
  cases hmk : assocLookup m (mergeKey r) with
  | none => exact ⟨row, assocLookup_append_left hl, hv⟩
  | some old =>
    by_cases hk : mergeKey r = k
    · subst hk
      rw [hmk] at hl
      have he : old = row := by injection hl
      subst he
      refine ⟨fillRow old r, assocLookup_assocSet_of_some _ hmk, ?_⟩
      rw [getField_fillRow]
      exact fillField_of_some hv hne
    · exact ⟨row, by rw [assocLookup_assocSet_ne hk]; exact hl, hv⟩

/-- Folding any list of rows with the fill semantics preserves every non-null,
non-empty field stored under any key. -/
theorem foldl_foldFill_preserve (rs : List Row) :
    ∀ {m : MergedMap} {k : Val} {row : Row} {fld : RowField} {v : Val},
    assocLookup m k = some row → getField row fld = some v → v ≠ .str "" →
    ∃ row', assocLookup (rs.foldl foldFill m) k = some row' ∧ getField row' fld = some v := by
  induction rs with
  | nil => exact fun hl hv _ => ⟨_, hl, hv⟩
  | cons r rest ih =>
    intro m k row fld v hl hv hne
    obtain ⟨row', hl', hv'⟩ := foldFill_preserve r hl hv hne
    exact ih hl' hv' hne

/-- With pairwise-distinct merge keys, the DWH phase inserts every row
verbatim, in order. -/
theorem foldl_foldDwh_of_nodup : ∀ (rows : List Row) (m : MergedMap),
    (∀ r ∈ rows, assocLookup m (mergeKey r) = none) → (rows.map mergeKey).Nodup →
    rows.foldl foldDwh m = m ++ rows.map (fun r => (mergeKey r, r)) := by
  intro rows
  induction rows with
  | nil => intro m _ _; simp
  | cons r rest ih =>
    intro m hfresh hnd
    have h0 : assocLookup m (mergeKey r) = none := hfresh r (by simp)
    have hstep : foldDwh m r = m ++ [(mergeKey r, r)] := by unfold foldDwh; rw [h0]
    simp only [List.map_cons, List.nodup_cons] at hnd
    have hfresh2 : ∀ r' ∈ rest, assocLookup (m ++ [(mergeKey r, r)]) (mergeKey r') = none := by
      intro r' hr'
      have h1 : assocLookup m (mergeKey r') = none := hfresh r' (by simp [hr'])
      have h2 : ¬ (mergeKey r = mergeKey r') := by
        intro he
        exact hnd.1 (he ▸ List.mem_map_of_mem mergeKey hr')
      rw [assocLookup_append_right h1]
      simp [assocLookup, h2]
    simp only [List.foldl_cons, List.map_cons, hstep]
    rw [ih (m ++ [(mergeKey r, r)]) hfresh2 hnd.2]
    simp

theorem insSorted_perm (le : α → α → Bool) (x : α) (l : List α) :
    List.Perm (insSorted le x l) (x :: l) := by
  induction l with
  | nil => rfl
  | cons y ys ih =>
    by_cases h : le x y
    · simp [insSorted, h]
    · simp only [insSorted, h, if_false, Bool.false_eq_true]
      exact (ih.cons y).trans (List.Perm.swap x y ys)

theorem isort_perm (le : α → α → Bool) (l : List α) : List.Perm (isort le l) l := by
  induction l with
  | nil => rfl
  | cons x xs ih => exact (insSorted_perm le x (isort le xs)).trans (ih.cons x)

/-- The merged-map values, before sorting. -/
theorem integrate_results_perm_unsorted (dwh_rows indigo_rows mongo_rows : List Row) :
    List.Perm (integrate_results dwh_rows indigo_rows mongo_rows)
      (integrateUnsorted dwh_rows indigo_rows mongo_rows) :=
  isort_perm rowLE _

/-! ## Claim C1 -/

/-- Counterexample to C1 as stated: two DWH rows share the merge key `AI1`;
the first stores the non-null price 100, and the second — processed later —
overwrites it with 200 via `dict.update`, so an existing non-null value IS
overwritten by a later-processed row of the first source. -/
theorem integrate_results_dwh_overwrite_cx :
    (normalize_row dwhRow100).price = some (.num ⟨100, 0⟩) ∧
    mergeKey (normalize_row dwhRow100) = mergeKey (normalize_row dwhRow200) ∧
    (integrate_results [dwhRow100, dwhRow200] [] []).map (·.price)
      = [some (.num ⟨200, 0⟩)] ∧
    [some (Val.num ⟨200, 0⟩)] ≠ [some (Val.num ⟨100, 0⟩)] := by
  refine ⟨by decide, by decide, by decide, by decide⟩

/-- C1 (amended): the merge engine processes DWH, then IndiGo, then Mongo.
Provided no two DWH rows share a merge key, the DWH phase inserts every
normalized row verbatim in order.  IndiGo and Mongo rows are inserted verbatim
under a fresh key; under an existing key they only fill fields that are
currently null or empty-string with their non-null values, and a non-null,
non-empty field that exists after the DWH phase survives both fill phases
unchanged (it is never overwritten by an IndiGo- or Mongo-processed row —
though a later DWH row with a duplicate key does overwrite, per the
counterexample).  The returned list is a permutation of the merged map's
values. -/
theorem integrate_results_merge_semantics (dwh_rows indigo_rows mongo_rows : List Row)
    (huniq : ((dwh_rows.map normalize_row).map mergeKey).Nodup) :
    ((dwh_rows.map normalize_row).foldl foldDwh []
        = (dwh_rows.map normalize_row).map (fun r => (mergeKey r, r))) ∧
    (∀ k row fld v,
      assocLookup ((dwh_rows.map normalize_row).foldl foldDwh []) k = some row →
      getField row fld = some v → v ≠ .str "" →
      ∃ row', assocLookup ((mongo_rows.map normalize_row).foldl foldFill
            ((indigo_rows.map normalize_row).foldl foldFill
              ((dwh_rows.map normalize_row).foldl foldDwh []))) k = some row' ∧
          getField row' fld = some v) ∧
    (∀ m r, assocLookup m (mergeKey r) = none → foldFill m r = m ++ [(mergeKey r, r)]) ∧
    (∀ m r old, assocLookup m (mergeKey r) = some old →
      foldFill m r = assocSet m (mergeKey r) (fillRow old r)) ∧
    (∀ old new fld v, getField old fld = some v → v ≠ .str "" →
      getField (fillRow old new) fld = some v) ∧
    (∀ old new fld v, (getField old fld = none ∨ getField old fld = some (.str "")) →
      getField new fld = some v → getField (fillRow old new) fld = some v) ∧
    List.Perm (integrate_results dwh_rows indigo_rows mongo_rows)
      (((mongo_rows.map normalize_row).foldl foldFill
        ((indigo_rows.map normalize_row).foldl foldFill
          ((dwh_rows.map normalize_row).foldl foldDwh []))).map (·.2)) := by
  refine ⟨?_, ?_, ?_, ?_, ?_, ?_, ?_⟩
  · simpa using foldl_foldDwh_of_nodup (dwh_rows.map normalize_row) []
      (fun r _ => rfl) huniq
  · intro k row fld v hl hv hne
    obtain ⟨row1, hl1, hv1⟩ := foldl_foldFill_preserve _ hl hv hne
    exact foldl_foldFill_preserve _ hl1 hv1 hne
  · intro m r h
    unfold foldFill
    rw [h]
  · intro m r old h
    unfold foldFill
    rw [h]
  · intro old new fld v h hne
    rw [getField_fillRow]
    exact fillField_of_some h hne
  · intro old new fld v h hn
    rw [getField_fillRow]
    exact fillField_of_empty h hn
  · exact isort_perm rowLE _

/-- Witness for the amended C1 at the Scenario 3 lists. -/
theorem integrate_results_merge_semantics_witness :
    (([scenario3RowA].map normalize_row).map mergeKey).Nodup ∧
    ((([scenario3RowA].map normalize_row).foldl foldDwh []
        = ([scenario3RowA].map normalize_row).map (fun r => (mergeKey r, r))) ∧
    (∀ k row fld v,
      assocLookup (([scenario3RowA].map normalize_row).foldl foldDwh []) k = some row →
      getField row fld = some v → v ≠ .str "" →
      ∃ row', assocLookup ((([] : List Row).map normalize_row).foldl foldFill
            (([scenario3RowB].map normalize_row).foldl foldFill
              (([scenario3RowA].map normalize_row).foldl foldDwh []))) k = some row' ∧
          getField row' fld = some v) ∧
    (∀ m r, assocLookup m (mergeKey r) = none → foldFill m r = m ++ [(mergeKey r, r)]) ∧
    (∀ m r old, assocLookup m (mergeKey r) = some old →
      foldFill m r = assocSet m (mergeKey r) (fillRow old r)) ∧
    (∀ old new fld v, getField old fld = some v → v ≠ .str "" →
      getField (fillRow old new) fld = some v) ∧
    (∀ old new fld v, (getField old fld = none ∨ getField old fld = some (.str "")) →
      getField new fld = some v → getField (fillRow old new) fld = some v) ∧
    List.Perm (integrate_results [scenario3RowA] [scenario3RowB] [])
      (((([] : List Row).map normalize_row).foldl foldFill
        (([scenario3RowB].map normalize_row).foldl foldFill
          (([scenario3RowA].map normalize_row).foldl foldDwh []))).map (·.2))) :=
  ⟨by decide, integrate_results_merge_semantics [scenario3RowA] [scenario3RowB] [] (by decide)⟩

/-! ## Claim C2 -/

/-- C2: a non-null `seat_count` stored for a key by the DWH phase survives
both lower-priority fill phases, and one stored after the IndiGo phase
survives the Mongo phase — the merged record for that key retains the
higher-priority value, which is also a member of the returned merged list.
Scenario 3 (key `AI123`, A `{price: null, seat_count: 40}` and B
`{price: 4500, seat_count: null}`) merges to price 4500 with seat_count 40. -/
theorem merged_retains_higher_priority_seat_count
    (dwh_rows indigo_rows mongo_rows : List Row) :
    (∀ k row v,
      assocLookup ((dwh_rows.map normalize_row).foldl foldDwh []) k = some row →
      row.seat_count = some v → v ≠ .str "" →
      ∃ row', assocLookup ((mongo_rows.map normalize_row).foldl foldFill
            ((indigo_rows.map normalize_row).foldl foldFill
              ((dwh_rows.map normalize_row).foldl foldDwh []))) k = some row' ∧
          row'.seat_count = some v ∧
          row' ∈ integrate_results dwh_rows indigo_rows mongo_rows) ∧
    (∀ k row v,
      assocLookup ((indigo_rows.map normalize_row).foldl foldFill
          ((dwh_rows.map normalize_row).foldl foldDwh [])) k = some row →
      row.seat_count = some v → v ≠ .str "" →
      ∃ row', assocLookup ((mongo_rows.map normalize_row).foldl foldFill
            ((indigo_rows.map normalize_row).foldl foldFill
              ((dwh_rows.map normalize_row).foldl foldDwh []))) k = some row' ∧
          row'.seat_count = some v ∧
          row' ∈ integrate_results dwh_rows indigo_rows mongo_rows) ∧
    (integrate_results [scenario3RowA] [scenario3RowB] []).map
        (fun r => (r.flight_no, r.price, r.seat_count))
      = [(some (.str "AI123"), some (.num ⟨4500, 0⟩), some (.num ⟨40, 0⟩))] := by
  refine ⟨?_, ?_, by decide⟩
  · intro k row v hl hv hne
    have hv' : getField row .seat_count = some v := hv
    obtain ⟨row1, hl1, hv1⟩ := foldl_foldFill_preserve _ hl hv' hne
    obtain ⟨row2, hl2, hv2⟩ := foldl_foldFill_preserve _ hl1 hv1 hne
    refine ⟨row2, hl2, hv2, ?_⟩
    exact ((integrate_results_perm_unsorted _ _ _).mem_iff).mpr (assocLookup_mem hl2)
  · intro k row v hl hv hne
    have hv' : getField row .seat_count = some v := hv
    obtain ⟨row2, hl2, hv2⟩ := foldl_foldFill_preserve _ hl hv' hne
    refine ⟨row2, hl2, hv2, ?_⟩
    exact ((integrate_results_perm_unsorted _ _ _).mem_iff).mpr (assocLookup_mem hl2)

/-- Witness for C2 at the Scenario 3 lists and key `AI123`. -/
theorem merged_retains_higher_priority_seat_count_witness :
    (assocLookup (([scenario3RowA].map normalize_row).foldl foldDwh []) (.str "AI123")
        = some (normalize_row scenario3RowA) ∧
      (normalize_row scenario3RowA).seat_count = some (.num ⟨40, 0⟩) ∧
      (Val.num ⟨40, 0⟩) ≠ .str "") ∧
    (∃ row', assocLookup ((([] : List Row).map normalize_row).foldl foldFill
          (([scenario3RowB].map normalize_row).foldl foldFill
            (([scenario3RowA].map normalize_row).foldl foldDwh []))) (.str "AI123")
          = some row' ∧
        row'.seat_count = some (.num ⟨40, 0⟩) ∧
        row' ∈ integrate_results [scenario3RowA] [scenario3RowB] []) :=
  ⟨⟨by decide, by decide, by decide⟩,
    (merged_retains_higher_priority_seat_count [scenario3RowA] [scenario3RowB] []).1
      (.str "AI123") (normalize_row scenario3RowA) (.num ⟨40, 0⟩)
      (by decide) (by decide) (by decide)⟩

/-! ## Lemmas about the stable sort -/

namespace Q

theorem leB_mono_of_eqv {a a' b b' : Q} (ha : a.eqv a') (hb : b.eqv b')
    (h : a.leB b = true) : a'.leB b' = true := by
  simp only [eqv, decide_eq_true_eq] at ha hb
  simp only [leB, decide_eq_true_eq] at h ⊢
  have h1 : a.num * (b.den : Int) * ((a'.den : Int) * (b'.den : Int))
      ≤ b.num * (a.den : Int) * ((a'.den : Int) * (b'.den : Int)) :=
    mul_le_mul_of_nonneg_right h (by positivity)
  have e1 : (a'.num * (b'.den : Int)) * ((a.den : Int) * (b.den : Int))
      = (a.num * (b.den : Int)) * ((a'.den : Int) * (b'.den : Int)) := by
    linear_combination (-((b.den : Int) * (b'.den : Int))) * ha
  have e2 : (b'.num * (a'.den : Int)) * ((a.den : Int) * (b.den : Int))
      = (b.num * (a.den : Int)) * ((a'.den : Int) * (b'.den : Int)) := by
    linear_combination (-((a.den : Int) * (a'.den : Int))) * hb
  have h2 : (a'.num * (b'.den : Int)) * ((a.den : Int) * (b.den : Int))
      ≤ (b'.num * (a'.den : Int)) * ((a.den : Int) * (b.den : Int)) := by
    rw [e1, e2]; exact h1
  exact le_of_mul_le_mul_right h2 (mul_pos a.den_pos b.den_pos)

theorem leB_congr {a a' b b' : Q} (ha : a.eqv a') (hb : b.eqv b') :
    a.leB b = a'.leB b' := by
  by_cases h : a.leB b = true
  · rw [h, leB_mono_of_eqv ha hb h]
  · have h' : a'.leB b' ≠ true := fun hc => h (leB_mono_of_eqv (eqv_symm ha) (eqv_symm hb) hc)
    simp only [Bool.not_eq_true] at h h'
    rw [h, h']

end Q

theorem priceOr0_eqv {x : Row} {a : Q} (h : x.price = some (.num a)) :
    (priceOr0 x).eqv a = true := by
  unfold priceOr0
  rw [h]
  by_cases ha : a.num = 0
  · simp [ha, Q.eqv]
  · simp [ha, Q.eqv_refl]

theorem rowLE_total (x y : Row) : rowLE x y || rowLE y x := by
  unfold rowLE
  cases hx : x.price.isNone <;> cases hy : y.price.isNone <;> simp [Q.leB_total]

theorem rowLE_trans {x y z : Row} (h1 : rowLE x y = true) (h2 : rowLE y z = true) :
    rowLE x z = true := by
  unfold rowLE at h1 h2 ⊢
  cases hx : x.price.isNone <;> cases hy : y.price.isNone <;> cases hz : z.price.isNone <;>
    simp only [hx, hy, hz] at h1 h2 ⊢ <;>
    first
    | rfl
    | exact Q.leB_trans h1 h2
    | simp_all

theorem rowLE_of_keyEqv {a b r0 : Row} (ha : rowKeyEqv a r0 = true)
    (hb : rowKeyEqv b r0 = true) : rowLE a b = true := by
  unfold rowKeyEqv at ha hb
  simp only [Bool.and_eq_true, beq_iff_eq] at ha hb
  have hn : a.price.isNone = b.price.isNone := ha.1.trans hb.1.symm
  have he : (priceOr0 a).eqv (priceOr0 b) = true :=
    Q.eqv_trans ha.2 (Q.eqv_symm hb.2)
  unfold rowLE
  rw [hn]
  cases b.price.isNone <;> exact Q.leB_of_eqv he

theorem pairwise_insSorted (le : α → α → Bool)
    (total : ∀ a b, le a b || le b a)
    (trans : ∀ {a b c}, le a b = true → le b c = true → le a c = true)
    (x : α) (l : List α) (h : l.Pairwise (fun a b => le a b = true)) :
    (insSorted le x l).Pairwise (fun a b => le a b = true) := by
  induction l with
  | nil => simp [insSorted]
  | cons y ys ih =>
    rcases List.pairwise_cons.mp h with ⟨hy, hys⟩
    by_cases hxy : le x y = true
    · simp only [insSorted, hxy, if_true]
      refine List.pairwise_cons.mpr ⟨?_, h⟩
      intro z hz
      rcases List.mem_cons.mp hz with rfl | hz'
      · exact hxy
      · exact trans hxy (hy z hz')
    · have hyx : le y x = true := by
        have ht := total x y
        simp only [Bool.or_eq_true] at ht
        rcases ht with hcon | hok
        · exact absurd hcon hxy
        · exact hok
      simp only [insSorted, hxy, if_false, Bool.false_eq_true]
      refine List.pairwise_cons.mpr ⟨?_, ih hys⟩
      intro z hz
      have hz' := (insSorted_perm le x ys).mem_iff.mp hz
      rcases List.mem_cons.mp hz' with rfl | hz''
      · exact hyx
      · exact hy z hz''

theorem pairwise_isort (le : α → α → Bool)
    (total : ∀ a b, le a b || le b a)
    (trans : ∀ {a b c}, le a b = true → le b c = true → le a c = true)
    (l : List α) : (isort le l).Pairwise (fun a b => le a b = true) := by
  induction l with
  | nil => simp [isort]
  | cons x xs ih => exact pairwise_insSorted le total @trans x (isort le xs) ih

theorem filter_insSorted_pos (le : α → α → Bool) (p : α → Bool) (x : α) (l : List α)
    (hx : p x = true) (hco : ∀ y ∈ l, p y = true → le x y = true) :
    (insSorted le x l).filter p = x :: l.filter p := by
  induction l with
  | nil => simp [insSorted, hx]
  | cons y ys ih =>
    by_cases hxy : le x y = true
    · simp [insSorted, hxy, hx]
    · have hpy : p y = false := by
        cases hpy0 : p y with
        | false => rfl
        | true => exact absurd (hco y (by simp) hpy0) hxy
      simp only [insSorted, hxy, if_false, Bool.false_eq_true, List.filter_cons, hpy]
      rw [ih (fun z hz hpz => hco z (by simp [hz]) hpz)]

theorem filter_insSorted_neg (le : α → α → Bool) (p : α → Bool) (x : α) (l : List α)
    (hx : p x = false) : (insSorted le x l).filter p = l.filter p := by
  induction l with
  | nil => simp [insSorted, hx]
  | cons y ys ih =>
    by_cases hxy : le x y = true
    · simp [insSorted, hxy, hx]
    · simp only [insSorted, hxy, if_false, Bool.false_eq_true, List.filter_cons]
      rw [ih]

theorem filter_isort (le : α → α → Bool) (p : α → Bool)
    (hcl : ∀ a b, p a = true → p b = true → le a b = true) (l : List α) :
    (isort le l).filter p = l.filter p := by
  induction l with
  | nil => rfl
  | cons x xs ih =>
    have hstep : isort le (x :: xs) = insSorted le x (isort le xs) := rfl
    by_cases hx : p x = true
    · rw [hstep, filter_insSorted_pos le p x (isort le xs) hx
        (fun y _ hpy => hcl x y hx hpy), ih, List.filter_cons, if_pos hx]
    · have hx2 : p x = false := by
        cases hx0 : p x with
        | false => rfl
        | true => exact absurd hx0 hx
      rw [hstep, filter_insSorted_neg le p x (isort le xs) hx2, ih, List.filter_cons]
      simp [hx2]

theorem priceOr0_none {x : Row} (h : x.price = none) : priceOr0 x = ⟨0, 0⟩ := by
  unfold priceOr0
  rw [h]

/-! ## Claim C4 -/

/-- C4: the list returned by the merge engine is sorted ascending under the
Python sort key — among numerically priced rows `rowLE` is exactly price
comparison, every row precedes a null-priced row, and a null-priced row never
precedes a priced one — and the sort is stable: for every sort-key class the
filtered subsequence equals that of the pre-sort merged list (original
insertion order), of which the result is a permutation. -/
theorem integrate_results_sorted_stable (dwh_rows indigo_rows mongo_rows : List Row) :
    (integrate_results dwh_rows indigo_rows mongo_rows).Pairwise
      (fun x y => rowLE x y = true) ∧
    (∀ x y a b, x.price = some (.num a) → y.price = some (.num b) →
      rowLE x y = a.leB b) ∧
    (∀ x y, y.price = none → rowLE x y = true) ∧
    (∀ x y w, x.price = none → y.price = some w → rowLE x y = false) ∧
    (∀ r0, (integrate_results dwh_rows indigo_rows mongo_rows).filter
        (fun r => rowKeyEqv r r0)
      = (integrateUnsorted dwh_rows indigo_rows mongo_rows).filter
        (fun r => rowKeyEqv r r0)) ∧
    List.Perm (integrate_results dwh_rows indigo_rows mongo_rows)
      (integrateUnsorted dwh_rows indigo_rows mongo_rows) := by
  refine ⟨?_, ?_, ?_, ?_, ?_, integrate_results_perm_unsorted _ _ _⟩
  · exact pairwise_isort rowLE rowLE_total (fun h1 h2 => rowLE_trans h1 h2) _
  · intro x y a b hx hy
    have hx2 : x.price.isNone = false := by rw [hx]; rfl
    have hy2 : y.price.isNone = false := by rw [hy]; rfl
    unfold rowLE
    rw [hx2, hy2]
    exact Q.leB_congr (priceOr0_eqv hx) (priceOr0_eqv hy)
  · intro x y hy
    have hy2 : y.price.isNone = true := by rw [hy]; rfl
    unfold rowLE
    rw [hy2]
    cases hx : x.price.isNone
    · rfl
    · have hx2 : x.price = none := Option.isNone_iff_eq_none.mp hx
      show (priceOr0 x).leB (priceOr0 y) = true
      rw [priceOr0_none hx2, priceOr0_none hy]
      decide
  · intro x y w hx hy
    have hx2 : x.price.isNone = true := by rw [hx]; rfl
    have hy2 : y.price.isNone = false := by rw [hy]; rfl
    unfold rowLE
    rw [hx2, hy2]
  · intro r0
    exact filter_isort rowLE (fun r => rowKeyEqv r r0)
      (fun a b ha hb => rowLE_of_keyEqv ha hb) _

/-! ## Lemmas about stripping and the summarization stage -/

theorem dropWhile_self_idem (p : α → Bool) (l : List α) :
    (l.dropWhile p).dropWhile p = l.dropWhile p := by
  induction l with
  | nil => rfl
  | cons c cs ih =>
    by_cases h : p c
    · simp [List.dropWhile_cons, h, ih]
    · simp [List.dropWhile_cons, h]

theorem dropWhile_append_singleton [DecidableEq α] (p : α → Bool) (c : α) (l : List α) :
    (l ++ [c]).dropWhile p
      = if l.dropWhile p = [] then [c].dropWhile p else l.dropWhile p ++ [c] := by
  induction l with
  | nil => simp
  | cons d ds ih =>
    by_cases h : p d
    · simpa [List.dropWhile_cons, h] using ih
    · simp [List.dropWhile_cons, h]

theorem endDrop_cons [DecidableEq α] (p : α → Bool) (c : α) (cs : List α) :
    ((c :: cs).reverse.dropWhile p).reverse
      = if (cs.reverse.dropWhile p).reverse = [] then (if p c then [] else [c])
        else c :: (cs.reverse.dropWhile p).reverse := by
  rw [List.reverse_cons, dropWhile_append_singleton]
  by_cases h : cs.reverse.dropWhile p = []
  · rw [if_pos h, if_pos (by simp [h])]
    by_cases hc : p c <;> simp [List.dropWhile_cons, hc]
  · rw [if_neg h, if_neg (by simpa using h)]
    simp

theorem dropWhile_endDrop_comm [DecidableEq α] (p : α → Bool) (l : List α) :
    ((l.reverse.dropWhile p).reverse).dropWhile p
      = ((l.dropWhile p).reverse.dropWhile p).reverse := by
  induction l with
  | nil => rfl
  | cons c cs ih =>
    rw [endDrop_cons]
    by_cases hE : (cs.reverse.dropWhile p).reverse = []
    · have hall : ∀ x ∈ cs, p x := by
        intro x hx
        have h0 : cs.reverse.dropWhile p = [] := by simpa using hE
        have := List.dropWhile_eq_nil_iff.mp h0
        exact this x (by simpa using hx)
      have hFcs : cs.dropWhile p = [] := List.dropWhile_eq_nil_iff.mpr hall
      by_cases hc : p c
      · rw [if_pos hE, if_pos hc]
        simp [List.dropWhile_cons, hc, hFcs]
      · rw [if_pos hE, if_neg hc]
        rw [show (c :: cs).dropWhile p = c :: cs by simp [List.dropWhile_cons, hc]]
        rw [endDrop_cons, if_pos hE, if_neg hc]
        simp [List.dropWhile_cons, hc]
    · rw [if_neg hE]
      by_cases hc : p c
      · rw [show ((c :: (cs.reverse.dropWhile p).reverse).dropWhile p)
            = ((cs.reverse.dropWhile p).reverse).dropWhile p by simp [List.dropWhile_cons, hc]]
        rw [show (c :: cs).dropWhile p = cs.dropWhile p by simp [List.dropWhile_cons, hc]]
        exact ih
      · rw [show ((c :: (cs.reverse.dropWhile p).reverse).dropWhile p)
            = c :: (cs.reverse.dropWhile p).reverse by simp [List.dropWhile_cons, hc]]
        rw [show (c :: cs).dropWhile p = c :: cs by simp [List.dropWhile_cons, hc]]
        rw [endDrop_cons, if_neg hE]

theorem stripChars_idem (l : List Char) : stripChars (stripChars l) = stripChars l := by
  have h1 : (stripChars l).dropWhile isPyWs = stripChars l := by
    unfold stripChars
    rw [dropWhile_endDrop_comm, dropWhile_self_idem]
  show (((stripChars l).dropWhile isPyWs).reverse.dropWhile isPyWs).reverse = stripChars l
  rw [h1]
  unfold stripChars
  rw [List.reverse_reverse, dropWhile_self_idem]

theorem pyStrip_idem (s : String) : pyStrip (pyStrip s) = pyStrip s := by
  show (⟨stripChars (stripChars s.data)⟩ : String) = ⟨stripChars s.data⟩
  rw [stripChars_idem]

theorem findIdx_lt_length {c : Char} {l : List Char} {i : Nat}
    (h : findIdx c l = some i) : i < l.length := by
  induction l generalizing i with
  | nil => simp [findIdx] at h
  | cons x xs ih =>
    unfold findIdx at h
    by_cases hx : x = c
    · rw [if_pos hx] at h
      injection h with h0
      subst h0
      simp only [List.length_cons]
      omega
    · rw [if_neg hx] at h
      cases hf : findIdx c xs with
      | none => rw [hf] at h; simp at h
      | some j =>
        rw [hf] at h
        injection h with h0
        subst h0
        have hj := ih hf
        simp only [List.length_cons]
        omega

theorem mk_ne_empty_of_ne_nil {l : List Char} (h : l ≠ []) : (⟨l⟩ : String) ≠ "" := by
  intro he
  exact h (congrArg String.data he)

theorem append_left_ne_empty {a b : String} (h : a ≠ "") : a ++ b ≠ "" := by
  intro he
  have hd : a.data ++ b.data = [] := congrArg String.data he
  rcases List.append_eq_nil.mp hd with ⟨ha, _⟩
  exact h (by cases a; simp_all)

theorem stripFences_ne_empty {t : String} (h : t ≠ "") : stripFences t ≠ "" := by
  unfold stripFences
  split_ifs with hf
  · cases h1 : findIdx '{' t.data with
    | none => simpa [h1] using h
    | some s =>
      cases h2 : rfindIdx '}' t.data with
      | none => simpa [h1, h2] using h
      | some e =>
        simp only [h1, h2]
        split_ifs with hse
        · apply mk_ne_empty_of_ne_nil
          have hs : s < t.data.length := findIdx_lt_length h1
          intro hnil
          have hlen := congrArg List.length hnil
          simp only [List.length_take, List.length_drop, List.length_nil] at hlen
          omega
        · exact h
  · exact h

theorem fallbackSummary_ne_empty (tag : String) (integrated : List Row) (h : tag ≠ "") :
    fallbackSummary tag integrated ≠ "" := by
  unfold fallbackSummary
  exact append_left_ne_empty h

theorem fallbackSummary_of_no_priced (tag : String) (integrated : List Row)
    (h : ∀ r ∈ integrated, r.price = none) : fallbackSummary tag integrated = tag := by
  unfold fallbackSummary
  have hf : integrated.filter (fun r => !r.price.isNone) = [] := by
    rw [List.filter_eq_nil_iff]
    intro r hr
    simp [h r hr]
  rw [hf]
  show tag ++ String.intercalate ", " [] = tag
  simp [String.intercalate]

/-! ## Claim C3 -/

/-- Counterexample to C3 as stated: with the model collaborator unconfigured
and an empty merged list, the summary is exactly the fallback prefix with an
empty flight list — it does not state that no price information is available
(that text lives only on unreachable exception branches). -/
theorem run_summarize_no_price_text_cx :
    run_summarize false (.ok none) [] = ("DETERMINISTIC FALLBACK (no LLM): ", .fallback) ∧
    containsSub "no price information" "DETERMINISTIC FALLBACK (no LLM): " = false ∧
    containsSub "no price info" "DETERMINISTIC FALLBACK (no LLM): " = false := by
  refine ⟨by decide, by decide, by decide⟩

/-- C3 (amended): the summarization stage is total and always yields a
non-empty summary text; the result is marked as coming from the LLM exactly
when the LLM is enabled and the provider returned text that is non-empty
after stripping; with the LLM disabled it is the deterministic fallback, and
with zero priced rows that fallback summary is exactly the fallback prefix
(it does not mention missing price information). -/
theorem run_summarize_spec (useLLM : Bool) (prov : ProviderResult) (integrated : List Row) :
    (run_summarize useLLM prov integrated).1 ≠ "" ∧
    ((run_summarize useLLM prov integrated).2 = .llm ↔
      (useLLM = true ∧ ∃ t, prov = .ok (some t) ∧ pyStrip t ≠ "")) ∧
    (useLLM = false →
      run_summarize useLLM prov integrated
        = (fallbackSummary "DETERMINISTIC FALLBACK (no LLM): " integrated, .fallback)) ∧
    ((∀ r ∈ integrated, r.price = none) →
      fallbackSummary "DETERMINISTIC FALLBACK (no LLM): " integrated
        = "DETERMINISTIC FALLBACK (no LLM): ") := by
  refine ⟨?_, ?_, ?_, fallbackSummary_of_no_priced _ _⟩
  · cases useLLM with
    | false => exact fallbackSummary_ne_empty _ _ (by decide)
    | true =>
      cases prov with
      | raise => exact fallbackSummary_ne_empty _ _ (by decide)
      | ok t? =>
        cases t? with
        | none => exact fallbackSummary_ne_empty _ _ (by decide)
        | some u =>
          show (run_summarize true (.ok (some u)) integrated).1 ≠ ""
          by_cases hcond : pyStrip u = ""
          · have he : run_summarize true (.ok (some u)) integrated
                = (fallbackSummary "DETERMINISTIC FALLBACK (LLM call failed): " integrated,
                    .fallback) := by
              simp [run_summarize, safe_call_llm, hcond]
            rw [he]
            exact fallbackSummary_ne_empty _ _ (by decide)
          · have he : run_summarize true (.ok (some u)) integrated
                = (stripFences (pyStrip (pyStrip u)), .llm) := by
              simp [run_summarize, safe_call_llm, hcond]
            rw [he]
            show stripFences (pyStrip (pyStrip u)) ≠ ""
            rw [pyStrip_idem]
            exact stripFences_ne_empty hcond
  · constructor
    · intro h
      cases useLLM with
      | false =>
        exfalso
        have he : (run_summarize false prov integrated).2 = SummarySource.fallback := rfl
        rw [he] at h
        exact SummarySource.noConfusion h
      | true =>
        cases prov with
        | raise =>
          exfalso
          have he : (run_summarize true .raise integrated).2 = SummarySource.fallback := rfl
          rw [he] at h
          exact SummarySource.noConfusion h
        | ok t? =>
          cases t? with
          | none =>
            exfalso
            have he : (run_summarize true (.ok none) integrated).2
                = SummarySource.fallback := rfl
            rw [he] at h
            exact SummarySource.noConfusion h
          | some u =>
            refine ⟨rfl, u, rfl, ?_⟩
            intro hne
            have he : run_summarize true (.ok (some u)) integrated
                = (fallbackSummary "DETERMINISTIC FALLBACK (LLM call failed): " integrated,
                    .fallback) := by
              simp [run_summarize, safe_call_llm, hne]
            rw [he] at h
            exact SummarySource.noConfusion h
    · rintro ⟨h1, t, h2, h3⟩
      subst h1
      subst h2
      have he : run_summarize true (.ok (some t)) integrated
          = (stripFences (pyStrip (pyStrip t)), .llm) := by
        simp [run_summarize, safe_call_llm, h3]
      rw [he]
  · intro h
    subst h
    rfl

/-- Witness for the amended C3: empty rows, unconfigured model. -/
theorem run_summarize_spec_witness :
    (run_summarize false (.ok none) []).1 ≠ "" ∧
    run_summarize false (.ok none) []
      = (fallbackSummary "DETERMINISTIC FALLBACK (no LLM): " [], .fallback) ∧
    fallbackSummary "DETERMINISTIC FALLBACK (no LLM): " []
      = "DETERMINISTIC FALLBACK (no LLM): " :=
  ⟨(run_summarize_spec false (.ok none) []).1,
    (run_summarize_spec false (.ok none) []).2.2.1 rfl,
    (run_summarize_spec false (.ok none) []).2.2.2 (by simp)⟩
